import Mathlib

/-!
# cob_light serial transport (serialIO.cpp)

A shallow embedding of the class SerialIO of cob_light/common/src/serialIO.cpp.

* The object's members (_fd, _device_string, _baudrate, port_settings, _oQueue,
  _thread) are the fields of SerialIOState.
* The operating system is a World: the log of the system calls made so far
  (in call order) and the number of live worker threads.  The results of the
  system calls come from an oracle Env whose answers may depend on the whole
  log, so every sequence of results can be produced.
* Each member function is a function from state and world to a Result holding
  the returned value, the new state and the new world.
* Where the source leaves the defined behaviour of C++ (FD_SET on a descriptor
  outside the fd_set, a string built from a length of 2^64-1, the end of a
  bool function without a return statement) the function ends in a Fault
  instead of a returned value.
* The mutex taken by sendData and readData is not modelled: the embedding is
  sequential.
-/

namespace CobLight

/-! ## Platform types -/

/-- Bytes of a payload (a C char array or the contents of a std::string). -/
abbrev Bytes := List UInt8

/-- The line-speed identifiers of termios.h (speed_t constants). The platform
also defines B600, which the switch of getBaudFromInt never produces. -/
inductive Speed where
  | B0 | B50 | B75 | B110 | B134 | B150 | B200 | B300 | B600 | B1200 | B1800
  | B2400 | B4800 | B9600 | B19200 | B38400 | B57600 | B115200 | B230400
  deriving DecidableEq, Repr

/-- The baud rate a speed identifier stands for. -/
def Speed.rate : Speed → Int
  | .B0 => 0 | .B50 => 50 | .B75 => 75 | .B110 => 110 | .B134 => 134
  | .B150 => 150 | .B200 => 200 | .B300 => 300 | .B600 => 600
  | .B1200 => 1200 | .B1800 => 1800 | .B2400 => 2400 | .B4800 => 4800
  | .B9600 => 9600 | .B19200 => 19200 | .B38400 => 38400 | .B57600 => 57600
  | .B115200 => 115200 | .B230400 => 230400

/-- The rates that have a case label in getBaudFromInt. -/
def supportedRates : List Int :=
  [0, 50, 75, 110, 134, 150, 200, 300, 1200, 1800, 2400, 4800, 9600, 19200,
   38400, 57600, 115200, 230400]

/-- SerialIO::getBaudFromInt (lines 212-240): the switch over the rate, with
the default label giving B230400. -/
def getBaudFromInt (baud : Int) : Speed :=
  if baud = 0 then .B0
  else if baud = 50 then .B50
  else if baud = 75 then .B75
  else if baud = 110 then .B110
  else if baud = 134 then .B134
  else if baud = 150 then .B150
  else if baud = 200 then .B200
  else if baud = 300 then .B300
  else if baud = 1200 then .B1200
  else if baud = 1800 then .B1800
  else if baud = 2400 then .B2400
  else if baud = 4800 then .B4800
  else if baud = 9600 then .B9600
  else if baud = 19200 then .B19200
  else if baud = 38400 then .B38400
  else if baud = 57600 then .B57600
  else if baud = 115200 then .B115200
  else if baud = 230400 then .B230400
  else .B230400

/-! ## Machine integers (LP64) -/

/-- Conversion of an integer value to int (32 bits, two's complement wrap). -/
def toInt32 (x : Int) : Int := (x + 2 ^ 31) % 2 ^ 32 - 2 ^ 31

/-- Conversion of an integer value to size_t (64 bits, unsigned wrap). -/
def toSizeT (x : Int) : Nat := (x % 2 ^ 64).toNat

/-! ## Data model -/

/-- The control flags openPort sets in c_cflag. -/
inductive CFlag where
  | CS8 | CREAD | CLOCAL
  deriving DecidableEq, Repr

/-- The fields of struct termios that openPort writes; the speeds set by
cfsetospeed and cfsetispeed are kept as two fields of their own. -/
structure Termios where
  c_iflag : Nat
  c_oflag : Nat
  c_cflag : List CFlag
  c_lflag : Nat
  vmin : Nat
  vtime : Nat
  ospeed : Speed
  ispeed : Speed
  deriving DecidableEq, Repr

/-- One outbound write unit, struct ioData: buf stands for the memory the
pointer refers to, len for the length handed over with it. -/
structure IoData where
  buf : Bytes
  len : Nat
  deriving DecidableEq, Repr

/-- The members of a SerialIO object. fd is _fd (-1 is the closed sentinel),
oQueue is _oQueue with its head first, thread tells whether _thread is
non-null. -/
structure SerialIOState where
  fd : Int
  device_string : String
  baudrate : Int
  port_settings : Termios
  oQueue : List (List IoData)
  thread : Bool
  deriving DecidableEq, Repr

/-- The constructor SerialIO::SerialIO (lines 62-65). port_settings is not
initialised by it, so its value is a parameter. -/
def SerialIOState.init (settings : Termios) : SerialIOState :=
  { fd := -1, device_string := "", baudrate := 9600, port_settings := settings,
    oQueue := [], thread := false }

/-! ## The operating system -/

/-- The calls the transport makes on its surroundings, with their arguments. -/
inductive OsCall where
  /-- The call open(path, O_RDWR | O_NONBLOCK). -/
  | osOpen (path : String)
  /-- The call tcsetattr(fd, TCSANOW, settings). -/
  | tcsetattr (fd : Int) (settings : Termios)
  /-- The call write(fd, data, len). -/
  | osWrite (fd : Int) (data : Bytes) (len : Nat)
  /-- The call select(nfds, fds, NULL, NULL, timeout) with fds holding readfd. -/
  | osSelect (nfds : Int) (readfd : Int) (timeoutUsec : Nat)
  /-- The call read(fd, buffer, nBytes). -/
  | osRead (fd : Int) (nBytes : Nat)
  /-- The call close(fd). -/
  | osClose (fd : Int)
  /-- The call usleep(usec). -/
  | usleep (usec : Nat)
  /-- The call tcflush(fd, TCIOFLUSH). -/
  | tcflush (fd : Int)
  /-- The pacing sleep r.sleep() of the worker loop. -/
  | rateSleep
  /-- Creation of the worker thread. -/
  | threadCreate
  /-- The call interrupt() on the worker thread. -/
  | threadInterrupt
  /-- The call join() on the worker thread. -/
  | threadJoin
  deriving DecidableEq, Repr

/-- What lies outside the object: the calls made so far, oldest first, and the
number of worker threads that exist. -/
structure World where
  log : List OsCall
  workers : Nat
  deriving DecidableEq, Repr

/-- The answers of the operating system. Each may depend on the log of the
calls made before. none stands for the failure result -1. -/
structure Env where
  /-- Result of open: a descriptor, or none when the call fails. -/
  openResult : List OsCall → String → Option Nat
  /-- Result of write: the number of bytes the device takes, or none. -/
  writeResult : List OsCall → Int → Bytes → Nat → Option Nat
  /-- Result of select: 0 on timeout, -1 on error, else the number of ready
  descriptors. -/
  selectResult : List OsCall → Int → Int → Int
  /-- Result of read: the bytes the device has ready, or none. -/
  readResult : List OsCall → Int → Nat → Option Bytes

/-- The most bytes one read or write transfers on Linux (MAX_RW_COUNT). -/
def maxRwCount : Nat := 0x7ffff000

/-- The call open(path, O_RDWR | O_NONBLOCK): the descriptor or -1. -/
def sysOpen (env : Env) (w : World) (path : String) : Int × World :=
  let r : Int :=
    match env.openResult w.log path with
    | none => -1
    | some n => (n : Int)
  (r, { w with log := w.log ++ [OsCall.osOpen path] })

/-- The call write(fd, data, len): -1, or a count that exceeds neither len nor
maxRwCount. -/
def sysWrite (env : Env) (w : World) (fd : Int) (data : Bytes) (len : Nat) : Int × World :=
  let r : Int :=
    match env.writeResult w.log fd data len with
    | none => -1
    | some k => ((min k (min len maxRwCount) : Nat) : Int)
  (r, { w with log := w.log ++ [OsCall.osWrite fd data len] })

/-- The call read(fd, buffer, nBytes): the result (-1 or the count) and the
bytes stored at the start of the buffer, at most nBytes and maxRwCount many. -/
def sysRead (env : Env) (w : World) (fd : Int) (nBytes : Nat) : Int × Bytes × World :=
  let w1 : World := { w with log := w.log ++ [OsCall.osRead fd nBytes] }
  match env.readResult w.log fd nBytes with
  | none => (-1, [], w1)
  | some bs =>
    let d := bs.take (min nBytes maxRwCount)
    ((d.length : Int), d, w1)

/-- The call select(fd + 1, fds, NULL, NULL, timeout) where fds holds fd
alone and the timeout is 100000 microseconds. The set has been built by
FD_ZERO and FD_SET before the call; see fdSet for the descriptors on which
FD_SET is defined. -/
def sysSelect (env : Env) (w : World) (fd : Int) : Int × World :=
  (env.selectResult w.log (fd + 1) fd,
   { w with log := w.log ++ [OsCall.osSelect (fd + 1) fd 100000] })

/-! ## Member functions -/

/-- What a member function leaves behind: the returned value, the members and
the world. -/
structure Result (α : Type) where
  ret : α
  st : SerialIOState
  w : World

/-- SerialIO::isOpen (lines 183-186). -/
def isOpen (s : SerialIOState) : Bool := decide (s.fd ≠ -1)

/-- The settings openPort builds after the memset: lines 82-88, then
cfsetospeed and cfsetispeed (lines 91-92). -/
def portSettingsFor (baud : Speed) : Termios :=
  let zeroed : Termios :=
    { c_iflag := 0, c_oflag := 0, c_cflag := [], c_lflag := 0, vmin := 0, vtime := 0,
      ospeed := Speed.B0, ispeed := Speed.B0 }
  let flagged : Termios :=
    { zeroed with c_iflag := 0, c_oflag := 0,
                  c_cflag := [CFlag.CS8, CFlag.CREAD, CFlag.CLOCAL], c_lflag := 0,
                  vmin := 1, vtime := 5 }
  { flagged with ospeed := baud, ispeed := baud }

/-- SerialIO::openPort (lines 74-97). The result of open is stored and
returned unchecked. -/
def openPort (env : Env) (s : SerialIOState) (w : World) (devicestring : String)
    (baudrate : Int) : Result Int :=
  if s.fd ≠ -1 then ⟨s.fd, s, w⟩
  else
    let baud := getBaudFromInt baudrate
    let opened := sysOpen env w devicestring
    let settings := portSettingsFor baud
    let w2 : World :=
      { opened.2 with log := opened.2.log ++ [OsCall.tcsetattr opened.1 settings] }
    ⟨opened.1,
     { s with fd := opened.1, device_string := devicestring, baudrate := baudrate,
              port_settings := settings },
     w2⟩

/-- SerialIO::sendData(std::string) (lines 100-107). -/
def sendData_string (env : Env) (s : SerialIOState) (w : World) (value : Bytes) : Result Int :=
  if s.fd ≠ -1 then
    let wr := sysWrite env w s.fd value value.length
    ⟨toInt32 wr.1, s, wr.2⟩
  else ⟨-1, s, w⟩

/-- SerialIO::sendData(const char*, size_t) (lines 110-117). -/
def sendData (env : Env) (s : SerialIOState) (w : World) (data : Bytes) (len : Nat) :
    Result Int :=
  if s.fd ≠ -1 then
    let wr := sysWrite env w s.fd data len
    ⟨toInt32 wr.1, s, wr.2⟩
  else ⟨-1, s, w⟩

/-- Ways a member function can fail to return. -/
inductive Fault where
  /-- The exception std::length_error of the std::string constructor. -/
  | lengthError
  /-- An access beyond the bytes held by the scratch buffer. -/
  | bufferOverrun
  /-- The macro FD_SET on a descriptor below 0 or not below FD_SETSIZE: an
  access outside the fd_set (undefined; fortified builds abort). -/
  | fdSetRange
  /-- Control flows off the end of a function declared to return a value
  (undefined; optimised builds do not return from the call). -/
  | missingReturn
  deriving DecidableEq, Repr

/-- The number of descriptors an fd_set holds (FD_SETSIZE on Linux). -/
def fdSetSize : Int := 1024

/-- The macro FD_SET(fd, fds) of line 125: defined for 0 ≤ fd < FD_SETSIZE,
an access outside the set otherwise. -/
def fdSet (fd : Int) : Except Fault Unit :=
  if 0 ≤ fd ∧ fd < fdSetSize then Except.ok () else Except.error Fault.fdSetRange

/-- Size of the scratch buffer of readData (char buffer[32]). -/
def bufferCapacity : Nat := 32

/-- The largest length std::string accepts (max_size of libstdc++). -/
def stringMaxSize : Nat := 2 ^ 63 - 1

/-- The constructor std::string(buffer, n) on a buffer holding the bytes
stored: it throws for n above max_size, and reads n bytes otherwise. -/
def stdString (stored : Bytes) (n : Nat) : Except Fault Bytes :=
  if stringMaxSize < n then Except.error Fault.lengthError
  else if stored.length < n then Except.error Fault.bufferOverrun
  else Except.ok (stored.take n)

/-- What readData leaves behind: the returned int or the fault, the caller's
string, the members and the world. -/
structure ReadOutcome where
  ret : Except Fault Int
  value : Bytes
  st : SerialIOState
  w : World

/-- SerialIO::readData (lines 120-136). FD_SET is applied to _fd with no
check of the descriptor (line 125). rec is a size_t that starts at -1, takes
the result of read and is returned as an int. -/
def readData (env : Env) (s : SerialIOState) (w : World) (value : Bytes) (nBytes : Nat) :
    ReadOutcome :=
  match fdSet s.fd with
  | Except.error f => ⟨Except.error f, value, s, w⟩
  | Except.ok _ =>
    let rec0 : Nat := toSizeT (-1)
    let sel := sysSelect env w s.fd
    if sel.1 ≠ 0 then
      let rd := sysRead env sel.2 s.fd nBytes
      if bufferCapacity < rd.2.1.length then
        ⟨Except.error Fault.bufferOverrun, value, s, rd.2.2⟩
      else
        let rec1 : Nat := toSizeT rd.1
        match stdString rd.2.1 rec1 with
        | Except.error f => ⟨Except.error f, value, s, rd.2.2⟩
        | Except.ok v => ⟨Except.ok (toInt32 (rec1 : Int)), v, s, rd.2.2⟩
    else ⟨Except.ok (toInt32 (rec0 : Int)), value, s, sel.2⟩

/-- SerialIO::start (lines 138-142). -/
def start (s : SerialIOState) (w : World) : Result Unit :=
  if s.thread = false then
    ⟨(), { s with thread := true },
     { log := w.log ++ [OsCall.threadCreate], workers := w.workers + 1 }⟩
  else ⟨(), s, w⟩

/-- SerialIO::stop (lines 144-152): interrupt, join, reset. After the join
the worker no longer exists. -/
def stop (s : SerialIOState) (w : World) : Result Unit :=
  if s.thread ≠ false then
    ⟨(), { s with thread := false },
     { log := w.log ++ [OsCall.threadInterrupt, OsCall.threadJoin],
       workers := w.workers - 1 }⟩
  else ⟨(), s, w⟩

/-- Modelled from the spec: the member push of the queue class of _oQueue,
which is not in serialIO.cpp. Section 4.3: push appends to the tail and always
succeeds. -/
def push {α : Type} (q : List α) (x : α) : List α := q ++ [x]

/-- Modelled from the spec: the member wait_pop of the queue class of _oQueue,
which is not in serialIO.cpp. Section 4.3: it blocks until a batch is
available, then removes and returns the head batch. none stands for a caller
that stays blocked on the empty queue. -/
def wait_pop {α : Type} : List α → Option (α × List α)
  | [] => none
  | x :: q => some (x, q)

/-- The end of a function declared bool that has no return statement, as
both overloads of enqueueData are. What happens there is undefined and depends
on the build, which offEnd stands for: none for a build where the call does
not return (optimised builds), some b for a build where the caller gets the
indeterminate value b (unoptimised builds). -/
def flowOffEnd (offEnd : Option Bool) : Except Fault Bool :=
  match offEnd with
  | none => Except.error Fault.missingReturn
  | some b => Except.ok b

/-- SerialIO::enqueueData(std::vector) (lines 167-170): the push, then the
end of the bool function is reached with no return statement. -/
def enqueueData (offEnd : Option Bool) (s : SerialIOState) (w : World)
    (data : List IoData) : Result (Except Fault Bool) :=
  let pushed : SerialIOState := { s with oQueue := push s.oQueue data }
  ⟨flowOffEnd offEnd, pushed, w⟩

/-- SerialIO::enqueueData(const char*, size_t) (lines 172-180): the buffer
is wrapped into a vector and pushed, then the end of the bool function is
reached with no return statement. -/
def enqueueData_buf (offEnd : Option Bool) (s : SerialIOState) (w : World) (buf : Bytes)
    (len : Nat) : Result (Except Fault Bool) :=
  let data : IoData := { buf := buf, len := len }
  let vec : List IoData := [] ++ [data]
  let pushed : SerialIOState := { s with oQueue := push s.oQueue vec }
  ⟨flowOffEnd offEnd, pushed, w⟩

/-- SerialIO::closePort (lines 189-196). -/
def closePort (s : SerialIOState) (w : World) : Result Unit :=
  if s.fd ≠ -1 then
    ⟨(), { s with fd := -1 }, { w with log := w.log ++ [OsCall.osClose s.fd] }⟩
  else ⟨(), s, w⟩

/-- SerialIO::recover (lines 198-209). The int returned by openPort is used
as the condition: every value but 0 takes the first branch. -/
def recover (env : Env) (s : SerialIOState) (w : World) : Result Bool :=
  let closed := closePort s w
  let opened := openPort env closed.st closed.w closed.st.device_string closed.st.baudrate
  if opened.ret ≠ 0 then
    ⟨true, opened.st,
     { opened.w with
       log := opened.w.log ++ [OsCall.usleep 50000, OsCall.tcflush opened.st.fd] }⟩
  else ⟨false, opened.st, opened.w⟩

/-! ## The worker loop -/

/-- The worker as run leaves it: the members, the world, and the calls of
sendData made so far (oldest first), each with the value it returned. -/
structure RunState where
  st : SerialIOState
  w : World
  sends : List (IoData × Int)

/-- The for loop of run (lines 161-162): sendData on each buffer of the
batch, in index order; the returned values are dropped by the code and kept
here only for the record. -/
def sendBatch (env : Env) : SerialIOState → World → List IoData →
    SerialIOState × World × List (IoData × Int)
  | s, w, [] => (s, w, [])
  | s, w, d :: ds =>
    let r := sendData env s w d.buf d.len
    let rest := sendBatch env r.st r.w ds
    (rest.1, rest.2.1, (d, r.ret) :: rest.2.2)

/-- One turn of the while loop of run (lines 160-163): wait_pop, the for
loop, the pacing sleep. none when wait_pop stays blocked. -/
def runStep (env : Env) (r : RunState) : Option RunState :=
  match wait_pop r.st.oQueue with
  | none => none
  | some (data, q) =>
    let sent := sendBatch env { r.st with oQueue := q } r.w data
    some ⟨sent.1, { sent.2.1 with log := sent.2.1.log ++ [OsCall.rateSleep] },
          r.sends ++ sent.2.2⟩

/-- SerialIO::run (lines 154-165), for at most n turns of its endless loop;
it stops early where wait_pop blocks on the empty queue. -/
def run (env : Env) : Nat → RunState → RunState
  | 0, r => r
  | n + 1, r =>
    match runStep env r with
    | none => r
    | some r2 => run env n r2

/-- The worker lifecycle calls. -/
inductive LifecycleOp where
  | start | stop
  deriving DecidableEq, Repr

/-- One lifecycle call on the members and the world. -/
def applyOp (op : LifecycleOp) (sw : SerialIOState × World) : SerialIOState × World :=
  match op with
  | LifecycleOp.start => ((start sw.1 sw.2).st, (start sw.1 sw.2).w)
  | LifecycleOp.stop => ((stop sw.1 sw.2).st, (stop sw.1 sw.2).w)

/-- A sequence of lifecycle calls, applied first to last. -/
def applyOps (ops : List LifecycleOp) (sw : SerialIOState × World) : SerialIOState × World :=
  ops.foldl (fun acc op => applyOp op acc) sw

/-- The world entries of one batch written through descriptor fd, followed by
the pacing sleep. -/
def batchCalls (fd : Int) (b : List IoData) : List OsCall :=
  b.map (fun d => OsCall.osWrite fd d.buf d.len) ++ [OsCall.rateSleep]

/-- A producer that hands the batches bs to enqueueData one after the other
and ignores the returned values: the members and the world once every call
has returned, none when a call does not return. -/
def enqueueAll (offEnd : Option Bool) : SerialIOState → World → List (List IoData) →
    Option (SerialIOState × World)
  | s, w, [] => some (s, w)
  | s, w, b :: bs =>
    match (enqueueData offEnd s w b).ret with
    | Except.error _ => none
    | Except.ok _ => enqueueAll offEnd (enqueueData offEnd s w b).st (enqueueData offEnd s w b).w bs

/-! ## Sample surroundings -/

/-- A system on which open always fails. -/
def envOpenFails : Env :=
  { openResult := fun _ _ => none, writeResult := fun _ _ _ len => some len,
    selectResult := fun _ _ _ => 1, readResult := fun _ _ _ => some [] }

/-- A system that reports the descriptor readable and whose read then fails. -/
def envReadFails : Env :=
  { openResult := fun _ _ => some 3, writeResult := fun _ _ _ len => some len,
    selectResult := fun _ _ _ => 1, readResult := fun _ _ _ => none }

/-- A system where every call succeeds: open gives descriptor 3, write takes
everything, select reports one ready descriptor, read delivers two bytes. -/
def envNominal : Env :=
  { openResult := fun _ _ => some 3, writeResult := fun _ _ _ len => some len,
    selectResult := fun _ _ _ => 1, readResult := fun _ _ _ => some [0x41, 0x42] }

/-- A system where select fails with -1. -/
def envSelectFails : Env :=
  { envNominal with selectResult := fun _ _ _ => -1 }

/-- A system where select times out. -/
def envTimeout : Env :=
  { envNominal with selectResult := fun _ _ _ => 0 }

/-- A system on which every write fails and everything else succeeds. -/
def envWriteFails : Env :=
  { envNominal with writeResult := fun _ _ _ _ => none }

/-- Two batches: one of two buffers, one of a single buffer. -/
def sampleBatches : List (List IoData) :=
  [[{ buf := [1], len := 1 }, { buf := [2, 3], len := 2 }], [{ buf := [4], len := 1 }]]

/-- An empty world. -/
def world0 : World := { log := [], workers := 0 }

/-- The settings a fresh object happens to hold. -/
def settings0 : Termios := portSettingsFor Speed.B0

/-- A fresh, closed transport. -/
def closedState : SerialIOState := SerialIOState.init settings0

/-- An open transport on descriptor 3. -/
def openState : SerialIOState :=
  { closedState with fd := 3, device_string := "/dev/ttyUSB0", baudrate := 230400,
                     port_settings := portSettingsFor Speed.B230400 }

/-! ## Theorems -/

/-- C1: getBaudFromInt is total; on each of the eighteen supported rates it
returns the speed identifier of that same rate, and on every other integer it
returns B230400. -/
theorem getBaudFromInt_supported_or_clamped (baud : Int) :
    (baud ∈ supportedRates → (getBaudFromInt baud).rate = baud) ∧
    (baud ∉ supportedRates → getBaudFromInt baud = Speed.B230400) := by
  constructor
  · intro h
    simp only [supportedRates, List.mem_cons, List.mem_singleton, List.not_mem_nil,
      or_false] at h
    rcases h with h | h | h | h | h | h | h | h | h | h | h | h | h | h | h | h | h | h <;>
      subst h <;> decide
  · intro h
    simp only [supportedRates, List.mem_cons, List.mem_singleton, List.not_mem_nil,
      or_false, not_or] at h
    obtain ⟨h1, h2, h3, h4, h5, h6, h7, h8, h9, h10, h11, h12, h13, h14, h15, h16, h17, h18⟩ := h
    simp [getBaudFromInt, h1, h2, h3, h4, h5, h6, h7, h8, h9, h10, h11, h12, h13, h14, h15,
      h16, h17, h18]

/-- C1 at concrete inputs: 9600 is supported and maps to its own identifier;
999999 is unsupported and maps to B230400. -/
theorem getBaudFromInt_supported_or_clamped_witness :
    ((9600 : Int) ∈ supportedRates ∧ (getBaudFromInt 9600).rate = 9600) ∧
    ((999999 : Int) ∉ supportedRates ∧ getBaudFromInt 999999 = Speed.B230400) :=
  ⟨⟨by decide, (getBaudFromInt_supported_or_clamped 9600).1 (by decide)⟩,
   ⟨by decide, (getBaudFromInt_supported_or_clamped 999999).2 (by decide)⟩⟩

/-! ### Integer conversions -/

/-- A value in the range of int is not changed by the conversion to int. -/
theorem toInt32_of_range (x : Int) (h1 : -(2 ^ 31) ≤ x) (h2 : x < 2 ^ 31) : toInt32 x = x := by
  unfold toInt32
  rw [Int.emod_eq_of_lt (by omega) (by omega)]
  omega

/-- The result of write is -1 or a count of at most maxRwCount. -/
theorem sysWrite_range (env : Env) (w : World) (fd : Int) (data : Bytes) (len : Nat) :
    -1 ≤ (sysWrite env w fd data len).1 ∧ (sysWrite env w fd data len).1 ≤ 0x7ffff000 := by
  unfold sysWrite
  cases env.writeResult w.log fd data len with
  | none => simp
  | some k =>
    simp only [maxRwCount]
    omega

/-- The world after write: the call is appended to the log. -/
theorem sysWrite_world (env : Env) (w : World) (fd : Int) (data : Bytes) (len : Nat) :
    (sysWrite env w fd data len).2 = { w with log := w.log ++ [OsCall.osWrite fd data len] } := by
  rfl

/-- The int that sendData returns on an open port is the result of write. -/
theorem toInt32_sysWrite (env : Env) (w : World) (fd : Int) (data : Bytes) (len : Nat) :
    toInt32 (sysWrite env w fd data len).1 = (sysWrite env w fd data len).1 := by
  have h := sysWrite_range env w fd data len
  exact toInt32_of_range _ (by omega) (by omega)

/-! ### sendData -/

/-- C4: on a closed port (fd = -1) both overloads of sendData return -1, make
no call on the device and leave the members unchanged; on an open port each
makes exactly one write of the payload on the descriptor, returns the result
of that write and leaves the members unchanged. -/
theorem sendData_closed_or_single_write (env : Env) (s : SerialIOState) (w : World)
    (data : Bytes) (len : Nat) (value : Bytes) :
    (s.fd = -1 →
      sendData env s w data len = ⟨-1, s, w⟩ ∧
      sendData_string env s w value = ⟨-1, s, w⟩) ∧
    (s.fd ≠ -1 →
      sendData env s w data len =
        ⟨(sysWrite env w s.fd data len).1, s,
         { w with log := w.log ++ [OsCall.osWrite s.fd data len] }⟩ ∧
      sendData_string env s w value =
        ⟨(sysWrite env w s.fd value value.length).1, s,
         { w with log := w.log ++ [OsCall.osWrite s.fd value value.length] }⟩) := by
  constructor
  · intro h
    simp [sendData, sendData_string, h]
  · intro h
    simp only [sendData, sendData_string, h, ne_eq, not_false_eq_true, if_true,
      toInt32_sysWrite, sysWrite_world, and_self]

/-- C4 at concrete inputs: a closed transport and an open one on descriptor 3. -/
theorem sendData_closed_or_single_write_witness :
    (sendData envNominal closedState world0 [1, 2] 2).ret = -1 ∧
    (sendData envNominal closedState world0 [1, 2] 2).w = world0 ∧
    (sendData envNominal openState world0 [1, 2] 2).ret = 2 ∧
    (sendData envNominal openState world0 [1, 2] 2).w.log = [OsCall.osWrite 3 [1, 2] 2] := by
  have hc := (sendData_closed_or_single_write envNominal closedState world0 [1, 2] 2 []).1 rfl
  have ho := (sendData_closed_or_single_write envNominal openState world0 [1, 2] 2 []).2
    (by decide)
  rw [hc.1, ho.1]
  refine ⟨rfl, rfl, ?_, rfl⟩
  decide

/-! ### openPort, closePort, recover -/

/-- C5: on an open port, openPort returns the current descriptor, makes no
call on the system and leaves all members unchanged, whatever path and baud
rate it is given. -/
theorem openPort_noop_when_open (env : Env) (s : SerialIOState) (w : World)
    (devicestring : String) (baudrate : Int) (h : s.fd ≠ -1) :
    openPort env s w devicestring baudrate = ⟨s.fd, s, w⟩ := by
  simp [openPort, h]

/-- C5 at a concrete input: an open transport on descriptor 3 with stored path
/dev/ttyUSB0 at 230400, asked to open /dev/ttyS1 at 9600. -/
theorem openPort_noop_when_open_witness :
    openState.fd ≠ -1 ∧
    openPort envNominal openState world0 "/dev/ttyS1" 9600 = ⟨3, openState, world0⟩ :=
  ⟨by decide, openPort_noop_when_open envNominal openState world0 "/dev/ttyS1" 9600 (by decide)⟩

/-- C6: after closePort the port is not open (fd = -1); closePort on a closed
port makes no call and changes nothing; closing twice gives the same members
and world as closing once. -/
theorem closePort_closes_and_idempotent (s : SerialIOState) (w : World) :
    isOpen (closePort s w).st = false ∧
    (closePort s w).st.fd = -1 ∧
    (s.fd = -1 → closePort s w = ⟨(), s, w⟩) ∧
    closePort (closePort s w).st (closePort s w).w = closePort s w := by
  by_cases h : s.fd = -1
  · simp [closePort, isOpen, h]
  · simp [closePort, isOpen, h]

/-- C6 at concrete inputs: closing an open transport on descriptor 3, and
closing a closed one. -/
theorem closePort_closes_and_idempotent_witness :
    isOpen (closePort openState world0).st = false ∧
    (closePort openState world0).w.log = [OsCall.osClose 3] ∧
    (closePort closedState world0).w = world0 ∧
    (closePort closedState world0).st = closedState := by
  have ho := closePort_closes_and_idempotent openState world0
  have hc := (closePort_closes_and_idempotent closedState world0).2.2.1 rfl
  rw [hc]
  exact ⟨ho.1, rfl, rfl, rfl⟩

/-- The value recover returns is true exactly when the descriptor it stored
differs from 0, and the port is open afterwards exactly when that descriptor
differs from -1. -/
theorem recover_ret_iff (env : Env) (s : SerialIOState) (w : World) :
    ((recover env s w).ret = true ↔ (recover env s w).st.fd ≠ 0) ∧
    (isOpen (recover env s w).st = true ↔ (recover env s w).st.fd ≠ -1) := by
  have hfd : ∀ (t : SerialIOState) (v : World) (d : String) (b : Int), t.fd = -1 →
      (openPort env t v d b).st.fd = (openPort env t v d b).ret := by
    intro t v d b ht
    simp [openPort, ht]
  have hc : (closePort s w).st.fd = -1 := by
    by_cases h : s.fd = -1 <;> simp [closePort, h]
  have h := hfd (closePort s w).st (closePort s w).w (closePort s w).st.device_string
    (closePort s w).st.baudrate hc
  constructor
  · unfold recover
    simp only []
    split <;> simp_all
  · simp [isOpen]

/-- C3: on a system where open always fails, recover returns true although
the port is closed afterwards; this holds from every state. -/
theorem recover_true_when_open_fails (s : SerialIOState) (w : World) :
    (recover envOpenFails s w).ret = true ∧
    isOpen (recover envOpenFails s w).st = false ∧
    (recover envOpenFails s w).st.fd = -1 := by
  have hc : (closePort s w).st.fd = -1 := by
    by_cases h : s.fd = -1 <;> simp [closePort, h]
  have ho : ∀ (t : SerialIOState) (v : World) (d : String) (b : Int), t.fd = -1 →
      (openPort envOpenFails t v d b).ret = -1 ∧ (openPort envOpenFails t v d b).st.fd = -1 := by
    intro t v d b ht
    simp [openPort, ht, sysOpen, envOpenFails]
  have h := ho (closePort s w).st (closePort s w).w (closePort s w).st.device_string
    (closePort s w).st.baudrate hc
  unfold recover isOpen
  simp only []
  rw [if_pos (by rw [h.1]; decide)]
  simp [h.2]

/-! ### readData -/

/-- A count below 2 ^ 64 is not changed by the conversion to size_t. -/
theorem toSizeT_of_small (n : Nat) (h : n < 2 ^ 64) : toSizeT (n : Int) = n := by
  unfold toSizeT
  rw [Int.emod_eq_of_lt (by omega) (by omega)]
  exact Int.toNat_ofNat n

/-- The size_t value -1 comes back as the int -1. -/
theorem toInt32_toSizeT_neg_one : toInt32 ((toSizeT (-1) : Nat) : Int) = -1 := by
  decide

/-- The macro FD_SET is defined on a descriptor from 0 up to FD_SETSIZE - 1. -/
theorem fdSet_ok (fd : Int) (hlo : 0 ≤ fd) (hhi : fd < fdSetSize) : fdSet fd = Except.ok () := by
  unfold fdSet
  rw [if_pos ⟨hlo, hhi⟩]

/-- On a closed port, and on any descriptor outside 0 .. FD_SETSIZE - 1,
readData leaves the defined behaviour at FD_SET: no select and no read is
made and no value is returned. -/
theorem readData_fd_out_of_range (env : Env) (s : SerialIOState) (w : World) (value : Bytes)
    (nBytes : Nat) (h : s.fd < 0 ∨ fdSetSize ≤ s.fd) :
    readData env s w value nBytes = ⟨Except.error Fault.fdSetRange, value, s, w⟩ := by
  have hset : fdSet s.fd = Except.error Fault.fdSetRange := by
    unfold fdSet
    rw [if_neg (by omega)]
  unfold readData
  rw [hset]

/-- C8: on a descriptor FD_SET is defined for (0 ≤ fd < FD_SETSIZE): when
select returns 0, readData returns -1, makes no read and leaves the caller's
string unchanged; when select returns anything else, its error result
included, the read is made. -/
theorem readData_timeout_only_on_zero (env : Env) (s : SerialIOState) (w : World)
    (value : Bytes) (nBytes : Nat) (hlo : 0 ≤ s.fd) (hhi : s.fd < fdSetSize) :
    (env.selectResult w.log (s.fd + 1) s.fd = 0 →
      readData env s w value nBytes =
        ⟨Except.ok (-1), value, s,
         { w with log := w.log ++ [OsCall.osSelect (s.fd + 1) s.fd 100000] }⟩) ∧
    (env.selectResult w.log (s.fd + 1) s.fd ≠ 0 →
      (readData env s w value nBytes).w.log =
        w.log ++ [OsCall.osSelect (s.fd + 1) s.fd 100000, OsCall.osRead s.fd nBytes]) := by
  have hset := fdSet_ok s.fd hlo hhi
  constructor
  · intro h
    simp only [readData, hset, sysSelect, h, ne_eq, not_true_eq_false, if_false,
      toInt32_toSizeT_neg_one]
  · intro h
    have hw : ∀ v : World, (sysRead env v s.fd nBytes).2.2.log = v.log ++ [OsCall.osRead s.fd nBytes] := by
      intro v
      unfold sysRead
      cases env.readResult v.log s.fd nBytes <;> rfl
    simp only [readData, hset, sysSelect, h, ne_eq, not_false_eq_true, if_true]
    split
    · simp [hw]
    · split <;> simp [hw]

/-- C8 at concrete inputs, on descriptor 3: a select that times out, one that
reports the descriptor readable, and one that fails with -1. -/
theorem readData_timeout_only_on_zero_witness :
    (0 ≤ openState.fd ∧ openState.fd < fdSetSize) ∧
    (readData envTimeout openState world0 [7] 4).ret = Except.ok (-1) ∧
    (readData envTimeout openState world0 [7] 4).value = [7] ∧
    (readData envTimeout openState world0 [7] 4).w.log = [OsCall.osSelect 4 3 100000] ∧
    (readData envNominal openState world0 [7] 4).w.log =
      [OsCall.osSelect 4 3 100000, OsCall.osRead 3 4] ∧
    (readData envSelectFails openState world0 [7] 4).w.log =
      [OsCall.osSelect 4 3 100000, OsCall.osRead 3 4] := by
  have ht := (readData_timeout_only_on_zero envTimeout openState world0 [7] 4
    (by decide) (by decide)).1 rfl
  have hr := (readData_timeout_only_on_zero envNominal openState world0 [7] 4
    (by decide) (by decide)).2 (by decide)
  have he := (readData_timeout_only_on_zero envSelectFails openState world0 [7] 4
    (by decide) (by decide)).2 (by decide)
  rw [ht, hr, he]
  exact ⟨⟨by decide, by decide⟩, rfl, rfl, rfl, rfl, rfl⟩

/-- On a descriptor FD_SET is defined for, after select reports the
descriptor readable and with nBytes within the scratch buffer: a read that
delivers bytes makes readData return their count, at most nBytes, with the
caller's string set to exactly those bytes; a read that fails makes the
std::string constructor throw, so readData does not return. -/
theorem readData_when_ready (env : Env) (s : SerialIOState) (w : World) (value : Bytes)
    (nBytes : Nat) (hlo : 0 ≤ s.fd) (hhi : s.fd < fdSetSize) (hn : nBytes ≤ bufferCapacity)
    (hsel : env.selectResult w.log (s.fd + 1) s.fd ≠ 0) :
    (∀ bs, env.readResult (sysSelect env w s.fd).2.log s.fd nBytes = some bs →
      (readData env s w value nBytes).ret = Except.ok ((bs.take nBytes).length : Int) ∧
      (readData env s w value nBytes).value = bs.take nBytes ∧
      (bs.take nBytes).length ≤ nBytes) ∧
    (env.readResult (sysSelect env w s.fd).2.log s.fd nBytes = none →
      (readData env s w value nBytes).ret = Except.error Fault.lengthError ∧
      (readData env s w value nBytes).value = value) := by
  have hset := fdSet_ok s.fd hlo hhi
  have hcap : nBytes ≤ 32 := hn
  constructor
  · intro bs hbs
    have hmin : min nBytes maxRwCount = nBytes := by
      simp only [maxRwCount]; omega
    have hlen : (bs.take nBytes).length ≤ nBytes := by
      rw [List.length_take]; omega
    have hsz : toSizeT ((bs.take nBytes).length : Int) = (bs.take nBytes).length :=
      toSizeT_of_small _ (by omega)
    have hstr : stdString (bs.take nBytes) (bs.take nBytes).length =
        Except.ok (bs.take nBytes) := by
      unfold stdString stringMaxSize
      rw [if_neg (by omega), if_neg (by omega), List.take_length]
    have hint : toInt32 ((bs.take nBytes).length : Int) = ((bs.take nBytes).length : Int) :=
      toInt32_of_range _ (by omega) (by omega)
    have hrd : sysRead env (sysSelect env w s.fd).2 s.fd nBytes =
        (((bs.take nBytes).length : Int), bs.take nBytes,
          { (sysSelect env w s.fd).2 with
            log := (sysSelect env w s.fd).2.log ++ [OsCall.osRead s.fd nBytes] }) := by
      unfold sysRead
      rw [hbs]
      simp only [hmin]
    have hsel2 : (sysSelect env w s.fd).1 ≠ 0 := hsel
    unfold readData
    rw [hset]
    simp only [hrd, hsel2, ne_eq, not_false_eq_true, if_true, hsz, hstr, hint]
    rw [if_neg (by simp only [bufferCapacity]; omega)]
    exact ⟨rfl, rfl, hlen⟩
  · intro hnone
    have hrd : sysRead env (sysSelect env w s.fd).2 s.fd nBytes =
        (-1, [],
          { (sysSelect env w s.fd).2 with
            log := (sysSelect env w s.fd).2.log ++ [OsCall.osRead s.fd nBytes] }) := by
      unfold sysRead
      rw [hnone]
    have hsz : toSizeT (-1) = 2 ^ 64 - 1 := by decide
    have hstr : stdString [] (2 ^ 64 - 1) = Except.error Fault.lengthError := by
      unfold stdString stringMaxSize
      rw [if_pos (by norm_num)]
    have hsel2 : (sysSelect env w s.fd).1 ≠ 0 := hsel
    unfold readData
    rw [hset]
    simp only [hrd, hsel2, ne_eq, not_false_eq_true, if_true, hsz, hstr]
    rw [if_neg (by simp [bufferCapacity])]
    exact ⟨rfl, rfl⟩

/-- C7: on an open port (descriptor 3) with nBytes = 4, when select reports
the descriptor readable and read then fails with -1, readData does not return
a count: the size_t value of -1 reaches the std::string constructor, which
throws std::length_error; the caller's string is not set. -/
theorem readData_failing_read_throws :
    (readData envReadFails openState world0 [7] 4).ret = Except.error Fault.lengthError ∧
    (readData envReadFails openState world0 [7] 4).value = [7] ∧
    (readData envReadFails openState world0 [7] 4).w.log =
      [OsCall.osSelect 4 3 100000, OsCall.osRead 3 4] := by
  exact ⟨rfl, rfl, rfl⟩

/-! ### enqueueData -/

/-- What both overloads of enqueueData do before the end of the function is
reached: the batch, or the one-buffer vector for (buf, len), has been pushed
at the tail of the queue and nothing else has changed, in the members or in
the world. -/
theorem enqueueData_effect (offEnd : Option Bool) (s : SerialIOState) (w : World)
    (batch : List IoData) (buf : Bytes) (len : Nat) :
    (enqueueData offEnd s w batch).st = { s with oQueue := s.oQueue ++ [batch] } ∧
    (enqueueData offEnd s w batch).w = w ∧
    (enqueueData_buf offEnd s w buf len).st =
      { s with oQueue := s.oQueue ++ [[{ buf := buf, len := len }]] } ∧
    (enqueueData_buf offEnd s w buf len).w = w := by
  exact ⟨rfl, rfl, rfl, rfl⟩

/-- C9: both overloads of enqueueData reach the end of a bool function with
no return statement; in a build where that does not return (none), from every
state and for every batch and buffer the call ends in the fault missingReturn
instead of returning to the producer, after the push has been made. -/
theorem enqueueData_flows_off_end (s : SerialIOState) (w : World) (batch : List IoData)
    (buf : Bytes) (len : Nat) :
    (enqueueData none s w batch).ret = Except.error Fault.missingReturn ∧
    (enqueueData none s w batch).st.oQueue = s.oQueue ++ [batch] ∧
    (enqueueData_buf none s w buf len).ret = Except.error Fault.missingReturn ∧
    (enqueueData_buf none s w buf len).st.oQueue =
      s.oQueue ++ [[{ buf := buf, len := len }]] := by
  exact ⟨rfl, rfl, rfl, rfl⟩

/-! ### start and stop -/

/-- Any sequence of start and stop calls keeps the number of workers equal to
1 when the handle is set and to 0 when it is null, and changes no member other
than the handle. -/
theorem applyOps_invariant (ops : List LifecycleOp) :
    ∀ (s : SerialIOState) (w : World), (w.workers = if s.thread then 1 else 0) →
      (applyOps ops (s, w)).2.workers = (if (applyOps ops (s, w)).1.thread then 1 else 0) ∧
      (applyOps ops (s, w)).1 = { s with thread := (applyOps ops (s, w)).1.thread } := by
  induction ops with
  | nil =>
    intro s w h
    exact ⟨h, rfl⟩
  | cons op ops ih =>
    intro s w h
    have hstep : applyOps (op :: ops) (s, w) = applyOps ops (applyOp op (s, w)) := rfl
    rw [hstep]
    cases op with
    | start =>
      cases ht : s.thread with
      | false =>
        have hs : applyOp LifecycleOp.start (s, w) =
            ({ s with thread := true },
             { log := w.log ++ [OsCall.threadCreate], workers := w.workers + 1 }) := by
          simp [applyOp, start, ht]
        rw [hs]
        have hw : w.workers = 0 := by simpa [ht] using h
        have := ih { s with thread := true }
          { log := w.log ++ [OsCall.threadCreate], workers := w.workers + 1 }
          (by simp [hw])
        refine ⟨this.1, ?_⟩
        rw [this.2]
      | true =>
        have hs : applyOp LifecycleOp.start (s, w) = (s, w) := by
          simp [applyOp, start, ht]
        rw [hs]
        exact ih s w h
    | stop =>
      cases ht : s.thread with
      | false =>
        have hs : applyOp LifecycleOp.stop (s, w) = (s, w) := by
          simp [applyOp, stop, ht]
        rw [hs]
        exact ih s w h
      | true =>
        have hs : applyOp LifecycleOp.stop (s, w) =
            ({ s with thread := false },
             { log := w.log ++ [OsCall.threadInterrupt, OsCall.threadJoin],
               workers := w.workers - 1 }) := by
          simp [applyOp, stop, ht]
        rw [hs]
        have hw : w.workers = 1 := by simpa [ht] using h
        have := ih { s with thread := false }
          { log := w.log ++ [OsCall.threadInterrupt, OsCall.threadJoin],
            workers := w.workers - 1 }
          (by simp [hw])
        refine ⟨this.1, ?_⟩
        rw [this.2]

/-- C10: from a transport whose worker count agrees with its handle, every
sequence of start and stop calls leaves at most one worker, and changes
neither the descriptor, the stored configuration nor the queue; start creates
a worker only when the handle is null and does nothing otherwise (start twice
is start once); stop on a running transport joins the worker and clears the
handle, and does nothing when stopped (stop twice is stop once). -/
theorem start_stop_at_most_one_worker (s : SerialIOState) (w : World)
    (ops : List LifecycleOp) (h : w.workers = if s.thread then 1 else 0) :
    (applyOps ops (s, w)).2.workers ≤ 1 ∧
    (applyOps ops (s, w)).2.workers = (if (applyOps ops (s, w)).1.thread then 1 else 0) ∧
    (applyOps ops (s, w)).1 = { s with thread := (applyOps ops (s, w)).1.thread } ∧
    (s.thread = false →
      start s w = ⟨(), { s with thread := true },
                   { log := w.log ++ [OsCall.threadCreate], workers := 1 }⟩) ∧
    (s.thread = true → start s w = ⟨(), s, w⟩) ∧
    start (start s w).st (start s w).w = start s w ∧
    (s.thread = true →
      stop s w = ⟨(), { s with thread := false },
                  { log := w.log ++ [OsCall.threadInterrupt, OsCall.threadJoin],
                    workers := 0 }⟩) ∧
    (s.thread = false → stop s w = ⟨(), s, w⟩) ∧
    stop (stop s w).st (stop s w).w = stop s w := by
  have hinv := applyOps_invariant ops s w h
  refine ⟨?_, hinv.1, hinv.2, ?_, ?_, ?_, ?_, ?_, ?_⟩
  · rw [hinv.1]
    split <;> omega
  · intro ht
    have hw : w.workers = 0 := by simpa [ht] using h
    simp [start, ht, hw]
  · intro ht
    simp [start, ht]
  · cases ht : s.thread <;> simp [start, ht]
  · intro ht
    have hw : w.workers = 1 := by simpa [ht] using h
    simp [stop, ht, hw]
  · intro ht
    simp [stop, ht]
  · cases ht : s.thread <;> simp [stop, ht]

/-- C10 at a concrete input: a fresh transport and the calls start, start,
stop, stop, start. -/
theorem start_stop_at_most_one_worker_witness :
    (world0.workers = if closedState.thread then 1 else 0) ∧
    (applyOps [LifecycleOp.start, LifecycleOp.start, LifecycleOp.stop, LifecycleOp.stop,
      LifecycleOp.start] (closedState, world0)).2.workers ≤ 1 ∧
    (applyOps [LifecycleOp.start, LifecycleOp.start, LifecycleOp.stop, LifecycleOp.stop,
      LifecycleOp.start] (closedState, world0)).2.log =
      [OsCall.threadCreate, OsCall.threadInterrupt, OsCall.threadJoin, OsCall.threadCreate] :=
  ⟨by decide,
   (start_stop_at_most_one_worker closedState world0
     [LifecycleOp.start, LifecycleOp.start, LifecycleOp.stop, LifecycleOp.stop,
      LifecycleOp.start] (by decide)).1,
   by decide⟩

/-! ### The worker loop -/

/-- The for loop of run calls sendData once per buffer of the batch, in the
order of the batch, and changes neither the members nor the worker count; on
an open port it appends one write per buffer to the log, on a closed port it
leaves the world as it is. -/
theorem sendBatch_calls (env : Env) (s : SerialIOState) (b : List IoData) :
    ∀ w : World,
      (sendBatch env s w b).1 = s ∧
      (sendBatch env s w b).2.2.map Prod.fst = b ∧
      (s.fd ≠ -1 →
        (sendBatch env s w b).2.1 =
          { w with log := w.log ++ b.map (fun d => OsCall.osWrite s.fd d.buf d.len) }) ∧
      (s.fd = -1 → (sendBatch env s w b).2.1 = w) := by
  induction b with
  | nil =>
    intro w
    simp [sendBatch]
  | cons d ds ih =>
    intro w
    have hst : (sendData env s w d.buf d.len).st = s := by
      unfold sendData
      split <;> rfl
    have hrec : sendBatch env s w (d :: ds) =
        ((sendBatch env s (sendData env s w d.buf d.len).w ds).1,
         (sendBatch env s (sendData env s w d.buf d.len).w ds).2.1,
         (d, (sendData env s w d.buf d.len).ret) ::
           (sendBatch env s (sendData env s w d.buf d.len).w ds).2.2) := by
      simp only [sendBatch, hst]
    have h := ih (sendData env s w d.buf d.len).w
    rw [hrec]
    refine ⟨h.1, ?_, ?_, ?_⟩
    · simp [h.2.1]
    · intro hfd
      have hw : (sendData env s w d.buf d.len).w =
          { w with log := w.log ++ [OsCall.osWrite s.fd d.buf d.len] } := by
        simp [sendData, hfd, sysWrite_world]
      have h3 := h.2.2.1 hfd
      rw [h3, hw]
      simp
    · intro hfd
      have hw : (sendData env s w d.buf d.len).w = w := by
        simp [sendData, hfd]
      have h4 := h.2.2.2 hfd
      rw [h4, hw]

/-- One turn of the loop on a queue with head batch b: the turn is made, the
head batch is removed from the queue and nothing else changes in the members,
sendData has been called on the buffers of b in order, and on an open port the
log has grown by the writes of b and the pacing sleep. -/
theorem runStep_cons (env : Env) (r : RunState) (b : List IoData) (q : List (List IoData))
    (hq : r.st.oQueue = b :: q) :
    ∃ r2, runStep env r = some r2 ∧
      r2.st = { r.st with oQueue := q } ∧
      r2.sends.map Prod.fst = r.sends.map Prod.fst ++ b ∧
      (r.st.fd ≠ -1 → r2.w = { r.w with log := r.w.log ++ batchCalls r.st.fd b }) := by
  obtain ⟨st, w, sends⟩ := r
  obtain ⟨fd, dev, baud, ps, q0, th⟩ := st
  simp only at hq
  subst hq
  have hb := sendBatch_calls env ⟨fd, dev, baud, ps, q, th⟩ b w
  refine ⟨_, rfl, hb.1, ?_, ?_⟩
  · simp [hb.2.1]
  · intro hfd
    have h3 := hb.2.2.1 hfd
    simp only [h3, batchCalls, List.append_assoc]

/-- After k turns, run has called sendData on the buffers of the first k
queued batches, batch by batch, and has removed those batches from the queue;
no other member has changed. -/
theorem run_sends (env : Env) (k : Nat) :
    ∀ r : RunState,
      (run env k r).sends.map Prod.fst =
        r.sends.map Prod.fst ++ (r.st.oQueue.take k).flatten ∧
      (run env k r).st = { r.st with oQueue := r.st.oQueue.drop k } := by
  induction k with
  | zero =>
    intro r
    simp [run]
  | succ n ih =>
    intro r
    cases hq : r.st.oQueue with
    | nil =>
      have hstep : runStep env r = none := by
        simp [runStep, hq, wait_pop]
      have hrun : run env (n + 1) r = r := by
        simp [run, hstep]
      rw [hrun]
      refine ⟨by simp, ?_⟩
      rw [List.drop_nil, ← hq]
    | cons b q =>
      obtain ⟨r2, hstep, hst, hsends, _⟩ := runStep_cons env r b q hq
      have hrun : run env (n + 1) r = run env n r2 := by
        simp [run, hstep]
      have h := ih r2
      rw [hrun, h.1, h.2, hsends, hst]
      simp

/-- On an open port, after k turns the log has grown by the writes of the
first k queued batches, each batch followed by the pacing sleep; the worker
count is unchanged. -/
theorem run_world_open (env : Env) (k : Nat) :
    ∀ r : RunState, r.st.fd ≠ -1 →
      (run env k r).w =
        { r.w with log := r.w.log ++ (r.st.oQueue.take k).flatMap (batchCalls r.st.fd) } := by
  induction k with
  | zero =>
    intro r _
    simp [run]
  | succ n ih =>
    intro r hfd
    cases hq : r.st.oQueue with
    | nil =>
      have hstep : runStep env r = none := by
        simp [runStep, hq, wait_pop]
      have hrun : run env (n + 1) r = r := by
        simp [run, hstep]
      rw [hrun]
      simp
    | cons b q =>
      obtain ⟨r2, hstep, hst, _, hw⟩ := runStep_cons env r b q hq
      have hrun : run env (n + 1) r = run env n r2 := by
        simp [run, hstep]
      have hfd2 : r2.st.fd ≠ -1 := by
        rw [hst]
        exact hfd
      have h := ih r2 hfd2
      rw [hrun, h, hw hfd, hst]
      simp

/-- When every call of enqueueData has returned, the queue holds the earlier
batches followed by bs, and nothing else has changed. -/
theorem enqueueAll_returned (offEnd : Option Bool) (bs : List (List IoData)) :
    ∀ (s s1 : SerialIOState) (w w1 : World), enqueueAll offEnd s w bs = some (s1, w1) →
      s1 = { s with oQueue := s.oQueue ++ bs } ∧ w1 = w := by
  induction bs with
  | nil =>
    intro s s1 w w1 h
    simp only [enqueueAll, Option.some.injEq, Prod.mk.injEq] at h
    refine ⟨?_, h.2.symm⟩
    rw [← h.1]
    simp
  | cons b bs ih =>
    intro s s1 w w1 h
    cases offEnd with
    | none =>
      simp [enqueueAll, enqueueData, flowOffEnd] at h
    | some v =>
      have hstep : enqueueAll (some v) s w (b :: bs) =
          enqueueAll (some v) { s with oQueue := s.oQueue ++ [b] } w bs := by
        simp [enqueueAll, enqueueData, flowOffEnd, push]
      rw [hstep] at h
      have h2 := ih { s with oQueue := s.oQueue ++ [b] } s1 w w1 h
      refine ⟨?_, h2.2⟩
      rw [h2.1]
      simp

/-- In a build where the end of enqueueData returns to the caller, every
sequence of enqueueData calls returns. -/
theorem enqueueAll_returns (v : Bool) (bs : List (List IoData)) :
    ∀ (s : SerialIOState) (w : World),
      enqueueAll (some v) s w bs = some ({ s with oQueue := s.oQueue ++ bs }, w) := by
  induction bs with
  | nil =>
    intro s w
    simp [enqueueAll]
  | cons b bs ih =>
    intro s w
    have hstep : enqueueAll (some v) s w (b :: bs) =
        enqueueAll (some v) { s with oQueue := s.oQueue ++ [b] } w bs := by
      simp [enqueueAll, enqueueData, flowOffEnd, push]
    rw [hstep, ih]
    simp

/-- C2: let the batches bs have been enqueued with enqueueData on an empty
queue before the worker runs, every call having returned (s1, w1 are the
members and the world then). After k turns of its loop the worker has called
sendData once per buffer of the first k batches, in the order of their
concatenation, whatever the calls returned, and those batches are gone from
the queue; on an open port the device has been handed exactly these buffers in
this order, each batch followed by the pacing sleep; once k reaches the number
of batches all buffers have been sent and the worker waits on the empty
queue. -/
theorem run_sends_in_submission_order (env : Env) (offEnd : Option Bool)
    (s s1 : SerialIOState) (w w1 : World) (bs : List (List IoData)) (k : Nat)
    (hq : s.oQueue = []) (henq : enqueueAll offEnd s w bs = some (s1, w1)) :
    (run env k ⟨s1, w1, []⟩).sends.map Prod.fst = (bs.take k).flatten ∧
    (run env k ⟨s1, w1, []⟩).st.oQueue = bs.drop k ∧
    (s.fd ≠ -1 →
      (run env k ⟨s1, w1, []⟩).w.log = w.log ++ (bs.take k).flatMap (batchCalls s.fd)) ∧
    (bs.length ≤ k →
      (run env k ⟨s1, w1, []⟩).sends.map Prod.fst = bs.flatten ∧
      (run env k ⟨s1, w1, []⟩).st.oQueue = [] ∧
      runStep env (run env k ⟨s1, w1, []⟩) = none) := by
  have hret := enqueueAll_returned offEnd bs s s1 w w1 henq
  have hs1 : s1 = { s with oQueue := bs } := by
    rw [hret.1, hq, List.nil_append]
  have hw1 : w1 = w := hret.2
  subst hs1
  subst hw1
  have hs := run_sends env k ⟨{ s with oQueue := bs }, w1, []⟩
  have hsends : (run env k ⟨{ s with oQueue := bs }, w1, []⟩).sends.map Prod.fst =
      (bs.take k).flatten := by
    simpa using hs.1
  have hqueue : (run env k ⟨{ s with oQueue := bs }, w1, []⟩).st.oQueue = bs.drop k := by
    simp only [hs.2]
  refine ⟨hsends, hqueue, ?_, ?_⟩
  · intro hfd
    have hw := run_world_open env k ⟨{ s with oQueue := bs }, w1, []⟩ hfd
    simp only [hw]
  · intro hk
    refine ⟨?_, ?_, ?_⟩
    · rw [hsends, List.take_of_length_le hk]
    · rw [hqueue, List.drop_eq_nil_of_le hk]
    · have hnil : (run env k ⟨{ s with oQueue := bs }, w1, []⟩).st.oQueue = [] := by
        rw [hqueue, List.drop_eq_nil_of_le hk]
      simp [runStep, hnil, wait_pop]

/-- C2 at a concrete input: two batches enqueued on an open transport, in a
build where enqueueData returns, on a system whose writes all fail; after two
turns the three buffers have been sent in order. -/
theorem run_sends_in_submission_order_witness :
    openState.oQueue = [] ∧
    enqueueAll (some true) openState world0 sampleBatches =
      some ({ openState with oQueue := sampleBatches }, world0) ∧
    (run envWriteFails 2 ⟨{ openState with oQueue := sampleBatches }, world0, []⟩).sends.map
      Prod.fst =
      [{ buf := [1], len := 1 }, { buf := [2, 3], len := 2 }, { buf := [4], len := 1 }] ∧
    (run envWriteFails 2 ⟨{ openState with oQueue := sampleBatches }, world0, []⟩).sends.map
      Prod.snd = [-1, -1, -1] ∧
    (run envWriteFails 2 ⟨{ openState with oQueue := sampleBatches }, world0, []⟩).w.log =
      [OsCall.osWrite 3 [1] 1, OsCall.osWrite 3 [2, 3] 2, OsCall.rateSleep,
       OsCall.osWrite 3 [4] 1, OsCall.rateSleep] ∧
    (run envWriteFails 2 ⟨{ openState with oQueue := sampleBatches }, world0, []⟩).st.oQueue =
      [] :=
  ⟨rfl, rfl,
   (run_sends_in_submission_order envWriteFails (some true) openState
     { openState with oQueue := sampleBatches } world0 world0 sampleBatches 2 rfl rfl).1,
   by decide,
   (run_sends_in_submission_order envWriteFails (some true) openState
     { openState with oQueue := sampleBatches } world0 world0 sampleBatches 2 rfl rfl).2.2.1
     (by decide),
   ((run_sends_in_submission_order envWriteFails (some true) openState
     { openState with oQueue := sampleBatches } world0 world0 sampleBatches 2 rfl rfl).2.2.2
     (by decide)).2.1⟩

end CobLight
